import Mathlib

/-!
Shallow embedding of the URL-shortener core (controller, database service,
redis cache service, short-code validator) and proofs about the claims of
the specification.

Conventions of the embedding:
- JavaScript timestamps are modelled as natural numbers (milliseconds).
- SQL INTEGER click counters are modelled as Int.
- The PostgreSQL table `urls` is modelled as a list of `Mapping` rows; the
  UNIQUE constraint on `short_code` is modelled inside
  `DatabaseService.createUrl` (an insert on an existing code raises the
  unique-violation error, exactly the 23505 branch of the source).
- The Redis store is modelled as three association lists, one per key
  namespace (`url:`, `clicks:`, `meta:`), plus an availability flag `up`:
  when `up` is false every redis client call throws, and each RedisService
  method lands in its catch branch (returning null or false without any
  state change), exactly as in the source.
- Asynchronous fire-and-forget operations (the click increments of
  `redirectUrl`) are executed in order in this sequential model; their
  results are discarded, as the source never awaits them.
- Randomness (nanoid generation) is modelled by passing the generated code
  as an explicit argument `gen` to `createShortUrl`.
-/

/-- JavaScript truthiness of an optional string: `null`/`undefined` and the
empty string are falsy, every other string is truthy. -/
def jsTruthyStr : Option String → Bool
  | some s => s ≠ ""
  | none => false

/-- JavaScript truthiness of an optional number: `null`/`undefined` and `0`
are falsy. Used for the `expiresIn` request field. -/
def jsTruthyNat : Option Nat → Bool
  | some n => n ≠ 0
  | none => false

/-- A row of the `urls` table (see the CREATE TABLE statement of
`initializeDatabase`): id, short_code, long_url, clicks, created_at,
expires_at, user_ip. The JSONB metadata column is never written by the
services and is omitted. -/
structure Mapping where
  id : Nat
  short_code : String
  long_url : String
  clicks : Int
  created_at : Nat
  expires_at : Option Nat
  user_ip : Option String
deriving Repr, DecidableEq

/-- The durable store state: the rows of the `urls` table. -/
abbrev DB := List Mapping

/-- Error raised by `DatabaseService.createUrl` when the UNIQUE constraint
on short_code fires (postgres error code 23505, rethrown as the message
"Short code already exists"). -/
inductive DbError where
  | uniqueViolation
deriving Repr, DecidableEq

/-- DatabaseService.createUrl: INSERT INTO urls (short_code, long_url,
user_ip, expires_at) VALUES (...) RETURNING *. The clicks column defaults
to 0 and created_at defaults to CURRENT_TIMESTAMP (the `now` argument);
the serial id is the `nextId` argument. An insert whose short_code already
exists violates the UNIQUE constraint and the service throws the
distinguishable unique-violation error. -/
def DatabaseService.createUrl (db : DB) (shortCode longUrl : String)
    (userIp : Option String) (expiresAt : Option Nat) (now nextId : Nat) :
    Except DbError (DB × Mapping) :=
  if db.any (fun m => m.short_code = shortCode) then
    .error .uniqueViolation
  else
    let m : Mapping :=
      { id := nextId, short_code := shortCode, long_url := longUrl,
        clicks := 0, created_at := now, expires_at := expiresAt,
        user_ip := userIp }
    .ok (db ++ [m], m)

/-- DatabaseService.getUrlbyShortCode: SELECT * FROM urls WHERE
short_code = $1, returning the row or null. -/
def DatabaseService.getUrlbyShortCode (db : DB) (shortCode : String) :
    Option Mapping :=
  db.find? (fun m => m.short_code = shortCode)

/-- DatabaseService.incrementClicks: UPDATE urls SET clicks = clicks + 1
WHERE short_code = $1 RETURNING clicks. Returns the updated database and
the new count (`rows[0]?.clicks || 0`, hence 0 when no row matched). -/
def DatabaseService.incrementClicks (db : DB) (shortCode : String) :
    DB × Int :=
  let db2 := db.map (fun m =>
    if m.short_code = shortCode then { m with clicks := m.clicks + 1 } else m)
  (db2, ((db2.find? (fun m => m.short_code = shortCode)).map Mapping.clicks).getD 0)

/-- DatabaseService.deleteUrl: DELETE FROM urls WHERE short_code = $1
RETURNING *. Returns the remaining rows and the deleted row
(`rows[0] || null`). -/
def DatabaseService.deleteUrl (db : DB) (shortCode : String) :
    DB × Option Mapping :=
  (db.filter (fun m => m.short_code ≠ shortCode),
   db.find? (fun m => m.short_code = shortCode))

/-- Projection returned by DatabaseService.getAnalytics: SELECT short_code,
long_url, clicks, created_at, expires_at FROM urls WHERE short_code = $1. -/
structure AnalyticsRow where
  short_code : String
  long_url : String
  clicks : Int
  created_at : Nat
  expires_at : Option Nat
deriving Repr, DecidableEq

/-- DatabaseService.getAnalytics: the five-column projection of the row
with the given short code, or null. No expiry condition appears in the
query. -/
def DatabaseService.getAnalytics (db : DB) (shortCode : String) :
    Option AnalyticsRow :=
  (db.find? (fun m => m.short_code = shortCode)).map (fun m =>
    { short_code := m.short_code, long_url := m.long_url,
      clicks := m.clicks, created_at := m.created_at,
      expires_at := m.expires_at })

/-- Insertion step for ORDER BY created_at DESC. -/
def insertByCreatedDesc (m : Mapping) : List Mapping → List Mapping
  | [] => [m]
  | x :: xs =>
      if m.created_at ≤ x.created_at then x :: insertByCreatedDesc m xs
      else m :: x :: xs

/-- Sort rows by created_at descending (ORDER BY created_at DESC). -/
def sortByCreatedDesc : List Mapping → List Mapping
  | [] => []
  | x :: xs => insertByCreatedDesc x (sortByCreatedDesc xs)

/-- DatabaseService.getAllUrls: SELECT * FROM urls ORDER BY created_at DESC
LIMIT $1 OFFSET $2. A pure read; the database state is unchanged. -/
def DatabaseService.getAllUrls (db : DB) (limit offset : Nat) :
    List Mapping :=
  (((sortByCreatedDesc db).drop offset).take limit)

/-- DatabaseService.getTotalUrlCount: SELECT COUNT(*) FROM urls. -/
def DatabaseService.getTotalUrlCount (db : DB) : Nat := db.length

/-- Association list update: set key `k` to `v`, replacing an existing
binding in place or appending a fresh one. -/
def setKV {α : Type} (l : List (String × α)) (k : String) (v : α) :
    List (String × α) :=
  match l with
  | [] => [(k, v)]
  | (k2, v2) :: t => if k2 = k then (k, v) :: t else (k2, v2) :: setKV t k v

/-- Association list lookup. -/
def getKV {α : Type} (l : List (String × α)) (k : String) : Option α :=
  (l.find? (fun p => p.1 = k)).map Prod.snd

/-- Association list deletion of every binding of key `k`. -/
def delKV {α : Type} (l : List (String × α)) (k : String) :
    List (String × α) :=
  l.filter (fun p => p.1 ≠ k)

/-- The metadata object cached by the controller under `meta:` keys:
`{ id, createdAt, expiresAt }` from the freshly inserted row. -/
structure CachedMeta where
  id : Nat
  createdAt : Nat
  expiresAt : Option Nat
deriving Repr, DecidableEq

/-- Redis cache state: one association list per key namespace (`url:`,
`clicks:`, `meta:`), plus the availability flag `up`. Redis TTL-based
eviction is internal to the cache layer and is not modelled; an evicted
entry behaves like any other cache miss, which the `up = false`
configuration already covers in full. -/
structure Cache where
  url : List (String × String)
  clicks : List (String × Int)
  meta : List (String × CachedMeta)
  up : Bool
deriving Repr, DecidableEq

/-- RedisService.cacheUrl: setEx on the `url:` key; on a redis failure the
catch branch returns false and the cache is unchanged. -/
def RedisService.cacheUrl (c : Cache) (shortCode longUrl : String) :
    Cache × Bool :=
  if c.up then ({ c with url := setKV c.url shortCode longUrl }, true)
  else (c, false)

/-- RedisService.getUrl: get on the `url:` key; null on a miss, and the
catch branch returns null on a redis failure. -/
def RedisService.getUrl (c : Cache) (shortCode : String) : Option String :=
  if c.up then getKV c.url shortCode else none

/-- RedisService.incrementClicks: INCR on the `clicks:` key (a missing
counter starts from 0); the catch branch returns false on failure. -/
def RedisService.incrementClicks (c : Cache) (shortCode : String) :
    Cache × Bool :=
  if c.up then
    let n := (getKV c.clicks shortCode).getD 0 + 1
    ({ c with clicks := setKV c.clicks shortCode n }, true)
  else (c, false)

/-- RedisService.getClickCount: get on the `clicks:` key; a missing key is
reported as 0 (`count ? parseInt(count) : 0`); the catch branch returns
null on failure. -/
def RedisService.getClickCount (c : Cache) (shortCode : String) :
    Option Int :=
  if c.up then some ((getKV c.clicks shortCode).getD 0) else none

/-- RedisService.deleteUrl: del on the `url:` key, then del on the
`clicks:` key. The `meta:` key is not touched by this method. The catch
branch returns false on failure with the cache unchanged. -/
def RedisService.deleteUrl (c : Cache) (shortCode : String) :
    Cache × Bool :=
  if c.up then
    ({ c with url := delKV c.url shortCode,
              clicks := delKV c.clicks shortCode }, true)
  else (c, false)

/-- RedisService.cacheMetadata: setEx of the JSON metadata on the `meta:`
key; the catch branch returns false on failure. -/
def RedisService.cacheMetadata (c : Cache) (shortCode : String)
    (metadata : CachedMeta) : Cache × Bool :=
  if c.up then ({ c with meta := setKV c.meta shortCode metadata }, true)
  else (c, false)

/-- RedisService.getMetadata: get on the `meta:` key; null on a miss or on
a redis failure. -/
def RedisService.getMetadata (c : Cache) (shortCode : String) :
    Option CachedMeta :=
  if c.up then getKV c.meta shortCode else none

/-- The base62 alphabet of shortCodeGenerator.js: digits, lowercase,
uppercase. -/
def alphabet : String :=
  "0123456789abcdefghijklmnopqrstuvwxyzABCDEFGHIJKLMNOPQRSTUVWXYZ"

/-- isValidShortCode of shortCodeGenerator.js: the regex test for
six to ten characters drawn from the base62 alphabet. Note the length
window of the regex is 6 to 10, and note that urlController.createShortUrl
never calls this function. -/
def isValidShortCode (code : String) : Bool :=
  code.data.all (fun ch => alphabet.data.contains ch) &&
    decide (6 ≤ code.length) && decide (code.length ≤ 10)

/-- Character-level test that the second list starts with the first. -/
def listStartsWith : List Char → List Char → Bool
  | [], _ => true
  | _ :: _, [] => false
  | p :: ps, c :: cs => p == c && listStartsWith ps cs

/-- Modelled from the spec: validator.isURL of the external npm validator
library (not part of this repository). The spec only requires the
destination to be a well-formed absolute URL; the claims use this check
solely as a pass or fail gate, so it is modelled as the presence of an
http or https scheme followed by a nonempty remainder. -/
def isURL (s : String) : Bool :=
  (listStartsWith "http://".data s.data && decide (7 < s.length)) ||
    (listStartsWith "https://".data s.data && decide (8 < s.length))

/-- Combined application state seen by the controller: the durable store
and the redis cache. -/
structure St where
  db : DB
  cache : Cache
deriving Repr, DecidableEq

/-- Body of a POST /api/urls request: { longUrl, customCode?, expiresIn? }. -/
structure CreateReq where
  longUrl : String
  customCode : Option String
  expiresIn : Option Nat
deriving Repr, DecidableEq

/-- The data object of a 201 response of createShortUrl. -/
structure CreatedData where
  id : Nat
  shortCode : String
  shortUrl : String
  longUrl : String
  clicks : Int
  createdAt : Nat
  expiresAt : Option Nat
deriving Repr, DecidableEq

/-- Responses of urlController.createShortUrl, one constructor per
res.status call of the source: 201 created, 400 invalid URL, 400 custom
code length, 409 conflict, 500 generic catch. -/
inductive CreateResp where
  | created (data : CreatedData)
  | invalidUrl
  | invalidCustomCodeLength
  | conflict
  | serverError
deriving Repr, DecidableEq

/-- HTTP status of a CreateResp. -/
def CreateResp.status : CreateResp → Nat
  | .created _ => 201
  | .invalidUrl => 400
  | .invalidCustomCodeLength => 400
  | .conflict => 409
  | .serverError => 500

/-- Expiration computation of createShortUrl: `let expiresAt = null; if
(expiresIn) { expiresAt = new Date(Date.now() + expiresIn * 1000) }`.
JavaScript truthiness, so 0 gives null; the absolute time is
now + expiresIn * 1000 ms. -/
def computeExpiresAt (expiresIn : Option Nat) (now : Nat) : Option Nat :=
  if jsTruthyNat expiresIn then some (now + (expiresIn.getD 0) * 1000)
  else none

/-- Tail of urlController.createShortUrl after URL and custom-code
validation: compute expiresAt, insert into the database (any thrown error
reaches the generic catch: 500), then best-effort cacheUrl and
cacheMetadata, then the 201 payload. -/
def urlController.createInsertPhase (st : St) (shortCode longUrl : String)
    (expiresIn : Option Nat) (now nextId : Nat) (userIp baseUrl : String) :
    St × CreateResp :=
  match DatabaseService.createUrl st.db shortCode longUrl (some userIp)
      (computeExpiresAt expiresIn now) now nextId with
  | .error _ => (st, .serverError)
  | .ok (db2, rec) =>
    ({ db := db2,
       cache := (RedisService.cacheMetadata
         (RedisService.cacheUrl st.cache shortCode longUrl).1 shortCode
         { id := rec.id, createdAt := rec.created_at,
           expiresAt := rec.expires_at }).1 },
     .created
       { id := rec.id, shortCode := shortCode,
         shortUrl := baseUrl ++ "/" ++ shortCode, longUrl := longUrl,
         clicks := 0, createdAt := rec.created_at,
         expiresAt := rec.expires_at })

/-- urlController.createShortUrl. Control flow of the source: reject a
falsy or malformed longUrl with 400; pick customCode when truthy, the
generated code otherwise; when customCode is truthy, reject a length
outside 4..10 with 400 and an existing row (getUrlbyShortCode, no expiry
condition) with 409; then the insert phase. -/
def urlController.createShortUrl (st : St) (req : CreateReq) (gen : String)
    (now nextId : Nat) (userIp baseUrl : String) : St × CreateResp :=
  if ¬ (jsTruthyStr (some req.longUrl) && isURL req.longUrl) then
    (st, .invalidUrl)
  else if jsTruthyStr req.customCode then
    if (req.customCode.getD "").length > 10 ∨
        (req.customCode.getD "").length < 4 then
      (st, .invalidCustomCodeLength)
    else
      match DatabaseService.getUrlbyShortCode st.db (req.customCode.getD "") with
      | some _ => (st, .conflict)
      | none =>
        urlController.createInsertPhase st (req.customCode.getD "")
          req.longUrl req.expiresIn now nextId userIp baseUrl
  else
    urlController.createInsertPhase st gen req.longUrl
      req.expiresIn now nextId userIp baseUrl

/-- Responses of urlController.redirectUrl: 302 redirect, 404 not found,
410 expired. -/
inductive RedirectResp where
  | redirect (longUrl : String)
  | notFound
  | expired
deriving Repr, DecidableEq

/-- HTTP status of a RedirectResp. -/
def RedirectResp.status : RedirectResp → Nat
  | .redirect _ => 302
  | .notFound => 404
  | .expired => 410

/-- Expiry test of redirectUrl: `urlRecord.expires_at && new
Date(urlRecord.expires_at) < new Date()`. -/
def isExpired (expiresAt : Option Nat) (now : Nat) : Bool :=
  match expiresAt with
  | some e => decide (e < now)
  | none => false

/-- Click-recording tail of urlController.redirectUrl: the fire-and-forget
Promise.all over RedisService.incrementClicks and
DatabaseService.incrementClicks — failures are only logged and the
results are discarded — followed by res.redirect(longUrl). -/
def urlController.recordAndRedirect (st : St) (shortCode longUrl : String) :
    St × RedirectResp :=
  ({ db := (DatabaseService.incrementClicks st.db shortCode).1,
     cache := (RedisService.incrementClicks st.cache shortCode).1 },
   .redirect longUrl)

/-- urlController.redirectUrl. Cache first (`if (!longUrl)` is JavaScript
truthiness, so an empty cached string also falls through); on a miss read
the database: 404 when absent; when expires_at is in the past delete the
row, delete the cache keys and answer 410; otherwise best-effort
re-populate the cache and fall into click recording and the redirect. -/
def urlController.redirectUrl (st : St) (shortCode : String) (now : Nat) :
    St × RedirectResp :=
  if jsTruthyStr (RedisService.getUrl st.cache shortCode) then
    urlController.recordAndRedirect st shortCode
      ((RedisService.getUrl st.cache shortCode).getD "")
  else
    match DatabaseService.getUrlbyShortCode st.db shortCode with
    | none => (st, .notFound)
    | some rec =>
      if isExpired rec.expires_at now then
        ({ db := (DatabaseService.deleteUrl st.db shortCode).1,
           cache := (RedisService.deleteUrl st.cache shortCode).1 },
         .expired)
      else
        urlController.recordAndRedirect
          { st with cache := (RedisService.cacheUrl st.cache shortCode
              rec.long_url).1 }
          shortCode rec.long_url

/-- Success body of urlController.deleteUrl: { success: true, message:
"Short URL deleted successfully" }. The deleted row returned by
DatabaseService.deleteUrl is only tested for truthiness and is not part
of the response. -/
structure DeleteBody where
  success : Bool
  message : String
deriving Repr, DecidableEq

/-- Responses of urlController.deleteUrl: 200 with the success body, or
404. -/
inductive DeleteResp where
  | ok (body : DeleteBody)
  | notFound
deriving Repr, DecidableEq

/-- urlController.deleteUrl: DatabaseService.deleteUrl; when nothing was
deleted answer 404; otherwise RedisService.deleteUrl on the cache and a
200 acknowledgment without the deleted row. -/
def urlController.deleteUrl (st : St) (shortCode : String) :
    St × DeleteResp :=
  match (DatabaseService.deleteUrl st.db shortCode).2 with
  | none =>
    ({ st with db := (DatabaseService.deleteUrl st.db shortCode).1 },
     .notFound)
  | some _ =>
    ({ db := (DatabaseService.deleteUrl st.db shortCode).1,
       cache := (RedisService.deleteUrl st.cache shortCode).1 },
     .ok { success := true, message := "Short URL deleted successfully" })

/-- Data object of a 200 analytics response. -/
structure AnalyticsData where
  shortCode : String
  longUrl : String
  clicks : Int
  createdAt : Nat
  expiresAt : Option Nat
deriving Repr, DecidableEq

/-- Responses of urlController.getAnalytics: 200 with the row data, or
404. -/
inductive AnalyticsResp where
  | ok (data : AnalyticsData)
  | notFound
deriving Repr, DecidableEq

/-- urlController.getAnalytics: a pure read-through to
DatabaseService.getAnalytics; 404 when the row is absent, otherwise the
full data with no expiry check of any kind. -/
def urlController.getAnalytics (st : St) (shortCode : String) :
    AnalyticsResp :=
  match DatabaseService.getAnalytics st.db shortCode with
  | none => .notFound
  | some a =>
    .ok { shortCode := a.short_code, longUrl := a.long_url,
          clicks := a.clicks, createdAt := a.created_at,
          expiresAt := a.expires_at }

/-- urlController.getAllUrls: a pure read-through to
DatabaseService.getAllUrls and getTotalUrlCount; the state is unchanged. -/
def urlController.getAllUrls (st : St) (limit offset : Nat) :
    List Mapping × Nat :=
  (DatabaseService.getAllUrls st.db limit offset,
   DatabaseService.getTotalUrlCount st.db)

/-- Example row whose expiry (1000) is in the past relative to the example
resolution time 2000. -/
def exMapExpired : Mapping :=
  { id := 1, short_code := "abcd", long_url := "http://db.example/x",
    clicks := 5, created_at := 10, expires_at := some 1000, user_ip := none }

/-- Example empty, available cache. -/
def exCacheUp : Cache := { url := [], clicks := [], meta := [], up := true }

/-- Example state holding only the expired row. -/
def exStExpired : St := { db := [exMapExpired], cache := exCacheUp }

/-- Example state holding the expired row together with a still-cached
destination entry for its code. -/
def exStExpiredCached : St :=
  { db := [exMapExpired],
    cache := { exCacheUp with url := [("abcd", "http://cached.example/x")] } }

/-- Example metadata object. -/
def exMeta : CachedMeta := { id := 1, createdAt := 10, expiresAt := none }

/-- Example cache holding a destination, a click counter and a metadata
entry for the same code. -/
def exCacheFull : Cache :=
  { url := [("abcd", "http://u")], clicks := [("abcd", 3)],
    meta := [("abcd", exMeta)], up := true }

/-- Example live (never-expiring) row. -/
def exMapLive : Mapping :=
  { id := 1, short_code := "live1", long_url := "http://live.example/z",
    clicks := 0, created_at := 10, expires_at := none, user_ip := none }

/-- Example state with a live row and an unavailable cache. -/
def exStDown : St :=
  { db := [exMapLive], cache := { url := [], clicks := [], meta := [], up := false } }

/-- Example empty state. -/
def exStEmpty : St := { db := [], cache := exCacheUp }

/-- Example row for code "abcd" with one destination and click count. -/
def exMapA : Mapping :=
  { id := 1, short_code := "abcd", long_url := "http://a.example/1",
    clicks := 5, created_at := 10, expires_at := none, user_ip := none }

/-- Example row for code "abcd" with a different destination and click
count. -/
def exMapB : Mapping :=
  { id := 2, short_code := "abcd", long_url := "http://b.example/2",
    clicks := 9, created_at := 20, expires_at := none, user_ip := none }

/-- Example state holding exMapA. -/
def exStA : St := { db := [exMapA], cache := exCacheUp }

/-- Example state holding exMapB. -/
def exStB : St := { db := [exMapB], cache := exCacheUp }

/-- Every click counter of the table is non-negative. -/
def clicksNonneg (db : DB) : Prop := ∀ m ∈ db, 0 ≤ m.clicks

/-- Between two table states, the click counter of every code readable in
both is unchanged. -/
def clicksPreserved (db db2 : DB) : Prop :=
  ∀ c m m2, DatabaseService.getUrlbyShortCode db c = some m →
    DatabaseService.getUrlbyShortCode db2 c = some m2 → m2.clicks = m.clicks

/-- Between two table states, the click counter of every code readable in
both either is unchanged or grew by exactly one. -/
def clicksStep (db db2 : DB) : Prop :=
  ∀ c m m2, DatabaseService.getUrlbyShortCode db c = some m →
    DatabaseService.getUrlbyShortCode db2 c = some m2 →
    m2.clicks = m.clicks ∨ m2.clicks = m.clicks + 1

theorem find?_append_some {α : Type} {p : α → Bool} {l l2 : List α} {m : α}
    (h : l.find? p = some m) : (l ++ l2).find? p = some m := by
  rw [List.find?_append, h]; rfl

theorem find?_append_none {α : Type} {p : α → Bool} {l l2 : List α}
    (h : l.find? p = none) : (l ++ l2).find? p = l2.find? p := by
  rw [List.find?_append, h]; rfl

theorem find?_filter_ne_self (db : DB) (code : String) :
    (db.filter (fun m => m.short_code ≠ code)).find?
        (fun m => m.short_code = code) = none := by
  rw [List.find?_eq_none]
  intro x hx
  have h := (List.mem_filter.mp hx).2
  simp only [decide_not, Bool.not_eq_eq_eq_not, Bool.not_true,
    decide_eq_false_iff_not] at h
  simp [h]

theorem find?_filter_ne_other (db : DB) (code c : String) (hne : c ≠ code) :
    (db.filter (fun m => m.short_code ≠ code)).find?
        (fun m => m.short_code = c)
      = db.find? (fun m => m.short_code = c) := by
  induction db with
  | nil => rfl
  | cons x xs ih =>
    rw [List.filter_cons]
    by_cases hx : x.short_code = code
    · have h1 : (decide (x.short_code ≠ code)) = false := by simp [hx]
      rw [h1]
      simp only [Bool.false_eq_true, if_false]
      rw [ih, List.find?_cons_of_neg]
      simp only [decide_eq_true_eq]
      intro h; exact hne (h ▸ hx)
    · have h1 : (decide (x.short_code ≠ code)) = true := by simp [hx]
      rw [h1]
      simp only [if_true]
      by_cases hc : x.short_code = c
      · rw [List.find?_cons_of_pos, List.find?_cons_of_pos] <;> simp [hc]
      · rw [List.find?_cons_of_neg, List.find?_cons_of_neg, ih] <;> simp [hc]

theorem find?_map_bump (db : DB) (code c : String) :
    ((db.map (fun m =>
        if m.short_code = code then { m with clicks := m.clicks + 1 }
        else m)).find? (fun m => m.short_code = c))
      = (db.find? (fun m => m.short_code = c)).map (fun m =>
          if m.short_code = code then { m with clicks := m.clicks + 1 }
          else m) := by
  induction db with
  | nil => rfl
  | cons x xs ih =>
    have hcode : ((if x.short_code = code then
        { x with clicks := x.clicks + 1 } else x) : Mapping).short_code
        = x.short_code := by split <;> rfl
    rw [List.map_cons]
    by_cases hc : x.short_code = c
    · rw [List.find?_cons_of_pos _ (by rw [hcode]; simpa using hc),
          List.find?_cons_of_pos _ (by simpa using hc)]
      simp
    · rw [List.find?_cons_of_neg _ (by rw [hcode]; simpa using hc),
          List.find?_cons_of_neg _ (by simpa using hc), ih]

theorem any_of_find?_some {α : Type} {p : α → Bool} {l : List α} {m : α}
    (h : l.find? p = some m) : l.any p = true := by
  rw [List.any_eq_true]
  exact ⟨m, List.mem_of_find?_eq_some h, List.find?_some h⟩

theorem any_of_find?_none {α : Type} {p : α → Bool} {l : List α}
    (h : l.find? p = none) : l.any p = false := by
  rw [List.any_eq_false]
  intro x hx
  exact (List.find?_eq_none.mp h) x hx

theorem getKV_setKV_self {α : Type} (l : List (String × α)) (k : String)
    (v : α) : getKV (setKV l k v) k = some v := by
  induction l with
  | nil => simp [setKV, getKV, List.find?]
  | cons p t ih =>
    obtain ⟨k2, v2⟩ := p
    by_cases h : k2 = k
    · simp [setKV, getKV, h, List.find?]
    · simp only [setKV, if_neg h]
      simpa [getKV, List.find?, h] using ih

theorem getKV_delKV_self {α : Type} (l : List (String × α)) (k : String) :
    getKV (delKV l k) k = none := by
  have h : (delKV l k).find? (fun p => p.1 = k) = none := by
    rw [List.find?_eq_none]
    intro x hx
    have h2 := (List.mem_filter.mp hx).2
    simp only [decide_not, Bool.not_eq_eq_eq_not, Bool.not_true,
      decide_eq_false_iff_not] at h2
    simp [h2]
  simp [getKV, h]

theorem createInsertPhase_resp (st : St) (shortCode longUrl : String)
    (expiresIn : Option Nat) (now nextId : Nat) (userIp baseUrl : String) :
    (urlController.createInsertPhase st shortCode longUrl expiresIn now
        nextId userIp baseUrl).2 = CreateResp.serverError ∨
    ∃ d, (urlController.createInsertPhase st shortCode longUrl expiresIn now
        nextId userIp baseUrl).2 = CreateResp.created d := by
  unfold urlController.createInsertPhase
  rcases h : DatabaseService.createUrl st.db shortCode longUrl (some userIp)
      (computeExpiresAt expiresIn now) now nextId with e | p
  · left; rfl
  · obtain ⟨db2, rec⟩ := p
    right; exact ⟨_, rfl⟩

theorem createInsertPhase_db (st : St) (shortCode longUrl : String)
    (expiresIn : Option Nat) (now nextId : Nat) (userIp baseUrl : String) :
    ((urlController.createInsertPhase st shortCode longUrl expiresIn now
        nextId userIp baseUrl).1.db = st.db) ∨
    ∃ rec : Mapping, rec.clicks = 0 ∧
      st.db.find? (fun m => m.short_code = rec.short_code) = none ∧
      (urlController.createInsertPhase st shortCode longUrl expiresIn now
          nextId userIp baseUrl).1.db = st.db ++ [rec] := by
  unfold urlController.createInsertPhase
  rcases hins : DatabaseService.createUrl st.db shortCode longUrl
      (some userIp) (computeExpiresAt expiresIn now) now nextId with herr | hok
  · left; rfl
  · right
    obtain ⟨db2, rec⟩ := hok
    unfold DatabaseService.createUrl at hins
    split at hins
    · exact absurd hins (by simp)
    · rename_i hany
      simp only [Except.ok.injEq, Prod.mk.injEq] at hins
      refine ⟨rec, ?_, ?_, ?_⟩
      · rw [← hins.2]
      · rw [← hins.2]
        rw [List.find?_eq_none]
        intro x hx
        have hfalse := List.any_eq_false.mp
          (Bool.not_eq_true _ ▸ hany : st.db.any
            (fun m => m.short_code = shortCode) = false) x hx
        simpa using hfalse
      · rw [← hins.2]
        exact hins.1.symm

theorem createShortUrl_db (st : St) (req : CreateReq) (gen : String)
    (now nextId : Nat) (userIp baseUrl : String) :
    ((urlController.createShortUrl st req gen now nextId userIp baseUrl).1.db
        = st.db) ∨
    ∃ rec : Mapping, rec.clicks = 0 ∧
      st.db.find? (fun m => m.short_code = rec.short_code) = none ∧
      (urlController.createShortUrl st req gen now nextId userIp baseUrl).1.db
        = st.db ++ [rec] := by
  unfold urlController.createShortUrl
  split
  · left; rfl
  · split
    · split
      · left; rfl
      · split
        · left; rfl
        · exact createInsertPhase_db st _ req.longUrl req.expiresIn now
            nextId userIp baseUrl
    · exact createInsertPhase_db st gen req.longUrl req.expiresIn now
        nextId userIp baseUrl

theorem redirectUrl_db (st : St) (code : String) (now : Nat) :
    ((urlController.redirectUrl st code now).1.db = st.db) ∨
    ((urlController.redirectUrl st code now).1.db
        = st.db.filter (fun m => m.short_code ≠ code)) ∨
    ((urlController.redirectUrl st code now).1.db
        = st.db.map (fun m =>
            if m.short_code = code then { m with clicks := m.clicks + 1 }
            else m)) := by
  unfold urlController.redirectUrl urlController.recordAndRedirect
    DatabaseService.incrementClicks DatabaseService.deleteUrl
  split
  · right; right; rfl
  · split
    · left; rfl
    · split
      · right; left; rfl
      · right; right; rfl

theorem deleteUrl_db (st : St) (code : String) :
    (urlController.deleteUrl st code).1.db
      = st.db.filter (fun m => m.short_code ≠ code) := by
  unfold urlController.deleteUrl DatabaseService.deleteUrl
  split <;> rfl

theorem clicksPreserved_refl (db : DB) : clicksPreserved db db := by
  intro c m m2 h1 h2
  rw [h1] at h2
  exact (Option.some.inj h2).symm ▸ rfl

theorem clicksStep_of_preserved {db db2 : DB}
    (h : clicksPreserved db db2) : clicksStep db db2 := by
  intro c m m2 h1 h2
  exact Or.inl (h c m m2 h1 h2)

theorem clicksNonneg_append {db : DB} {rec : Mapping}
    (h : clicksNonneg db) (h0 : rec.clicks = 0) :
    clicksNonneg (db ++ [rec]) := by
  intro m hm
  rcases List.mem_append.mp hm with hin | hin
  · exact h m hin
  · rcases List.mem_singleton.mp hin with rfl
    rw [h0]

theorem clicksPreserved_append (db : DB) (rec : Mapping) :
    clicksPreserved db (db ++ [rec]) := by
  intro c m m2 h1 h2
  unfold DatabaseService.getUrlbyShortCode at h1 h2
  rw [find?_append_some h1] at h2
  exact (Option.some.inj h2).symm ▸ rfl

theorem clicksNonneg_filter {db : DB} (p : Mapping → Bool)
    (h : clicksNonneg db) : clicksNonneg (db.filter p) := by
  intro m hm
  exact h m (List.mem_filter.mp hm).1

theorem clicksPreserved_filter (db : DB) (code : String) :
    clicksPreserved db (db.filter (fun m => m.short_code ≠ code)) := by
  intro c m m2 h1 h2
  unfold DatabaseService.getUrlbyShortCode at h1 h2
  by_cases hc : c = code
  · subst hc
    rw [find?_filter_ne_self] at h2
    exact absurd h2 (by simp)
  · rw [find?_filter_ne_other db code c hc, h1] at h2
    exact (Option.some.inj h2).symm ▸ rfl

theorem clicksNonneg_bump {db : DB} (code : String)
    (h : clicksNonneg db) :
    clicksNonneg (db.map (fun m =>
      if m.short_code = code then { m with clicks := m.clicks + 1 }
      else m)) := by
  intro m hm
  rcases List.mem_map.mp hm with ⟨x, hx, rfl⟩
  have := h x hx
  split <;> simp <;> omega

theorem clicksStep_bump (db : DB) (code : String) :
    clicksStep db (db.map (fun m =>
      if m.short_code = code then { m with clicks := m.clicks + 1 }
      else m)) := by
  intro c m m2 h1 h2
  unfold DatabaseService.getUrlbyShortCode at h1 h2
  rw [find?_map_bump, h1] at h2
  simp only [Option.map_some'] at h2
  have h3 := Option.some.inj h2
  by_cases hmc : m.short_code = code
  · right
    rw [← h3]
    simp [hmc]
  · left
    rw [← h3]
    simp [hmc]

/-- Claim C1, corrected: the liveness pre-check of Create for a custom
code returns Conflict whenever a row with that code is present in the
durable store, whether expired or not — the pre-check performs no expiry
test, so a present-but-expired record is NOT treated as available. -/
theorem C1_custom_precheck_conflict (st : St) (req : CreateReq)
    (gen : String) (now nextId : Nat) (userIp baseUrl : String)
    (c : String) (m : Mapping)
    (hurl : (jsTruthyStr (some req.longUrl) && isURL req.longUrl) = true)
    (hc : req.customCode = some c) (hne : c ≠ "")
    (hlo : 4 ≤ c.length) (hhi : c.length ≤ 10)
    (hex : DatabaseService.getUrlbyShortCode st.db c = some m) :
    urlController.createShortUrl st req gen now nextId userIp baseUrl
      = (st, CreateResp.conflict) := by
  have hcust : jsTruthyStr req.customCode = true := by
    rw [hc]; simpa [jsTruthyStr] using hne
  have hlen : ¬ ((req.customCode.getD "").length > 10 ∨
      (req.customCode.getD "").length < 4) := by
    rw [hc]; simp only [Option.getD_some]; omega
  unfold urlController.createShortUrl
  rw [if_neg (by simp [hurl]), if_pos hcust, if_neg hlen, hc]
  simp only [Option.getD_some]
  rw [hex]

/-- Witness for C1: the amended theorem applied to the concrete expired
state. -/
theorem C1_witness :
    urlController.createShortUrl exStExpired
      { longUrl := "http://new.example/y", customCode := some "abcd",
        expiresIn := none }
      "ggggggg" 2000 2 "ip" "b" = (exStExpired, CreateResp.conflict) :=
  C1_custom_precheck_conflict exStExpired
    { longUrl := "http://new.example/y", customCode := some "abcd",
      expiresIn := none }
    "ggggggg" 2000 2 "ip" "b" "abcd" exMapExpired
    (by decide) rfl (by decide) (by decide) (by decide) (by decide)

/-- Counterexample for C1 as stated: the stored mapping under code "abcd"
is expired at resolution time 2000 (expiresAt 1000), yet Create with
custom code "abcd" returns Conflict on the pre-check instead of treating
the code as available. -/
theorem C1_counterexample :
    (urlController.createShortUrl exStExpired
        { longUrl := "http://new.example/y", customCode := some "abcd",
          expiresIn := none }
        "ggggggg" 2000 2 "ip" "b").2 = CreateResp.conflict ∧
    exMapExpired.expires_at = some 1000 ∧ (1000 : Nat) < 2000 ∧
    DatabaseService.getUrlbyShortCode exStExpired.db "abcd"
      = some exMapExpired := by
  refine ⟨?_, rfl, by norm_num, rfl⟩
  decide

/-- Claim C2, corrected: for a truthy custom code and a valid destination,
Create rejects with the custom-code InvalidInput response exactly when the
length is outside 4..10; alphabet membership is never checked, so a custom
code of admissible length whose characters lie outside the 62-symbol
alphabet is accepted. -/
theorem C2_custom_code_length_only (st : St) (req : CreateReq)
    (gen : String) (now nextId : Nat) (userIp baseUrl : String) (c : String)
    (hurl : (jsTruthyStr (some req.longUrl) && isURL req.longUrl) = true)
    (hc : req.customCode = some c) (hne : c ≠ "") :
    ((urlController.createShortUrl st req gen now nextId userIp baseUrl).2
        = CreateResp.invalidCustomCodeLength)
      ↔ (c.length < 4 ∨ 10 < c.length) := by
  have hcust : jsTruthyStr req.customCode = true := by
    rw [hc]; simpa [jsTruthyStr] using hne
  unfold urlController.createShortUrl
  rw [if_neg (by simp [hurl]), if_pos hcust, hc]
  simp only [Option.getD_some]
  by_cases hl : c.length > 10 ∨ c.length < 4
  · rw [if_pos hl]
    constructor
    · intro _; omega
    · intro _; rfl
  · rw [if_neg hl]
    have hrhs : ¬ (c.length < 4 ∨ 10 < c.length) := by omega
    rcases hfind : DatabaseService.getUrlbyShortCode st.db c with _ | m
    · refine iff_of_false ?_ hrhs
      rcases createInsertPhase_resp st c req.longUrl req.expiresIn now
          nextId userIp baseUrl with h | ⟨d, h⟩ <;>
        simp only [] <;> rw [h] <;> simp
    · exact iff_of_false (by simp) hrhs

/-- Witness for C2: the amended theorem applied at the concrete custom
code "abc" of length 3. -/
theorem C2_witness :
    ((urlController.createShortUrl exStEmpty
        { longUrl := "http://new.example/y", customCode := some "abc",
          expiresIn := none }
        "ggggggg" 100 1 "ip" "b").2 = CreateResp.invalidCustomCodeLength)
      ↔ (("abc".length < 4 ∨ 10 < "abc".length)) :=
  C2_custom_code_length_only exStEmpty
    { longUrl := "http://new.example/y", customCode := some "abc",
      expiresIn := none }
    "ggggggg" 100 1 "ip" "b" "abc" (by decide) rfl (by decide)

/-- Counterexample for C2 as stated: the custom code "ab!d" has length 4
but contains a character outside the 62-symbol alphabet (it fails the
repository validator isValidShortCode), yet Create accepts it with a 201
instead of rejecting it with InvalidInput. -/
theorem C2_counterexample :
    (urlController.createShortUrl exStEmpty
        { longUrl := "http://new.example/y", customCode := some "ab!d",
          expiresIn := none }
        "ggggggg" 100 1 "ip" "b").2
      = CreateResp.created
          { id := 1, shortCode := "ab!d", shortUrl := "b/ab!d",
            longUrl := "http://new.example/y", clicks := 0,
            createdAt := 100, expiresAt := none } ∧
    isValidShortCode "ab!d" = false ∧
    ("ab!d".data.all (fun ch => alphabet.data.contains ch)) = false := by
  refine ⟨by decide, by decide, by decide⟩

theorem getUrl_deleteUrl_self (c : Cache) (code : String) :
    RedisService.getUrl (RedisService.deleteUrl c code).1 code = none := by
  unfold RedisService.getUrl RedisService.deleteUrl
  by_cases hup : c.up
  · simp only [hup, if_true]
    exact getKV_delKV_self c.url code
  · simp [hup]

theorem redirectUrl_notFound (st : St) (code : String) (now : Nat)
    (hmiss : RedisService.getUrl st.cache code = none)
    (hnone : DatabaseService.getUrlbyShortCode st.db code = none) :
    urlController.redirectUrl st code now = (st, RedirectResp.notFound) := by
  unfold urlController.redirectUrl
  rw [hmiss, if_neg (by simp [jsTruthyStr]), hnone]

/-- Claim C3, corrected: for a code whose stored mapping is expired and
whose destination is not served from the cache (the cache misses for that
code), Resolve returns Expired, deletes the row from the durable store,
removes the cached destination, and a subsequent Resolve of the same code
returns NotFound without changing the state further. The restriction to a
cache miss is forced: a still-cached destination is served without any
expiry check (see the counterexample). -/
theorem C3_expired_miss_resolution (st : St) (code : String) (now : Nat)
    (m : Mapping)
    (hmiss : RedisService.getUrl st.cache code = none)
    (hfound : DatabaseService.getUrlbyShortCode st.db code = some m)
    (hexp : isExpired m.expires_at now = true) :
    (urlController.redirectUrl st code now).2 = RedirectResp.expired ∧
    DatabaseService.getUrlbyShortCode
      (urlController.redirectUrl st code now).1.db code = none ∧
    RedisService.getUrl (urlController.redirectUrl st code now).1.cache code
      = none ∧
    urlController.redirectUrl (urlController.redirectUrl st code now).1 code
      now = ((urlController.redirectUrl st code now).1,
             RedirectResp.notFound) := by
  have h1 : urlController.redirectUrl st code now
      = ({ db := (DatabaseService.deleteUrl st.db code).1,
           cache := (RedisService.deleteUrl st.cache code).1 },
         RedirectResp.expired) := by
    unfold urlController.redirectUrl
    rw [hmiss, if_neg (by simp [jsTruthyStr]), hfound]
    simp only []
    rw [if_pos hexp]
  have hdb : DatabaseService.getUrlbyShortCode
      (DatabaseService.deleteUrl st.db code).1 code = none := by
    unfold DatabaseService.getUrlbyShortCode DatabaseService.deleteUrl
    exact find?_filter_ne_self st.db code
  have hcache : RedisService.getUrl
      (RedisService.deleteUrl st.cache code).1 code = none :=
    getUrl_deleteUrl_self st.cache code
  refine ⟨by rw [h1], by rw [h1]; exact hdb, by rw [h1]; exact hcache, ?_⟩
  rw [h1]
  exact redirectUrl_notFound _ code now hcache hdb

/-- Witness for C3: the amended theorem applied at the concrete expired
state with an empty cache. -/
theorem C3_witness :
    (urlController.redirectUrl exStExpired "abcd" 2000).2
      = RedirectResp.expired :=
  (C3_expired_miss_resolution exStExpired "abcd" 2000 exMapExpired rfl rfl
    (by decide)).1

/-- Counterexample for C3 as stated: the stored mapping under "abcd" is
expired at time 2000, but its destination is still cached, so Resolve
serves the cached destination and does not return Expired. -/
theorem C3_counterexample :
    (urlController.redirectUrl exStExpiredCached "abcd" 2000).2
      = RedirectResp.redirect "http://cached.example/x" ∧
    (urlController.redirectUrl exStExpiredCached "abcd" 2000).2
      ≠ RedirectResp.expired ∧
    exMapExpired.expires_at = some 1000 ∧ (1000 : Nat) < 2000 := by
  exact ⟨by decide, by decide, rfl, by norm_num⟩

/-- Claim C4, corrected: cache invalidation for a code removes the
destination entry and the click-counter entry but does NOT remove the
metadata entry: RedisService.deleteUrl deletes only the url and clicks
keys, so the meta namespace is left untouched. -/
theorem C4_invalidate_scope (c : Cache) (code : String)
    (hup : c.up = true) :
    RedisService.getUrl (RedisService.deleteUrl c code).1 code = none ∧
    getKV (RedisService.deleteUrl c code).1.clicks code = none ∧
    (RedisService.deleteUrl c code).1.meta = c.meta := by
  refine ⟨getUrl_deleteUrl_self c code, ?_, ?_⟩
  · unfold RedisService.deleteUrl
    rw [if_pos hup]
    exact getKV_delKV_self c.clicks code
  · unfold RedisService.deleteUrl
    rw [if_pos hup]

/-- Witness for C4: the amended theorem applied at the concrete populated
cache. -/
theorem C4_witness :
    RedisService.getUrl (RedisService.deleteUrl exCacheFull "abcd").1 "abcd"
      = none ∧
    getKV (RedisService.deleteUrl exCacheFull "abcd").1.clicks "abcd"
      = none ∧
    (RedisService.deleteUrl exCacheFull "abcd").1.meta = exCacheFull.meta :=
  C4_invalidate_scope exCacheFull "abcd" rfl

/-- Counterexample for C4 as stated: after invalidating code "abcd" in a
cache holding all three namespaces for it, the metadata entry keyed by
that code is still readable, so not every cache entry keyed by the code is
removed. -/
theorem C4_counterexample :
    RedisService.getMetadata (RedisService.deleteUrl exCacheFull "abcd").1
        "abcd" = some exMeta ∧
    RedisService.getMetadata (RedisService.deleteUrl exCacheFull "abcd").1
        "abcd" ≠ none := by
  exact ⟨by decide, by decide⟩

/-- Claim C5, corrected: when the durable insert fails because the code
already exists (the uniqueness-constraint race on a generated code, the
only path on which the insert can fail in this embedding), Create surfaces
the generic 500 server error of its catch-all handler — not Conflict —
and makes no retry: the state is returned unchanged after the single
insert attempt. -/
theorem C5_insert_conflict_surfaces_500 (st : St) (req : CreateReq)
    (gen : String) (now nextId : Nat) (userIp baseUrl : String)
    (m : Mapping)
    (hurl : (jsTruthyStr (some req.longUrl) && isURL req.longUrl) = true)
    (hnocustom : jsTruthyStr req.customCode = false)
    (hexists : DatabaseService.getUrlbyShortCode st.db gen = some m) :
    urlController.createShortUrl st req gen now nextId userIp baseUrl
      = (st, CreateResp.serverError) ∧
    DatabaseService.createUrl st.db gen req.longUrl (some userIp)
      (computeExpiresAt req.expiresIn now) now nextId
      = Except.error DbError.uniqueViolation := by
  have hany : st.db.any (fun m => m.short_code = gen) = true :=
    any_of_find?_some hexists
  have hins : DatabaseService.createUrl st.db gen req.longUrl (some userIp)
      (computeExpiresAt req.expiresIn now) now nextId
      = Except.error DbError.uniqueViolation := by
    unfold DatabaseService.createUrl
    rw [if_pos hany]
  refine ⟨?_, hins⟩
  unfold urlController.createShortUrl
  rw [if_neg (by simp [hurl]), if_neg (by simp [hnocustom])]
  unfold urlController.createInsertPhase
  rw [hins]

/-- Witness for C5: the amended theorem applied at the concrete state in
which the generated code already exists. -/
theorem C5_witness :
    urlController.createShortUrl exStExpired
      { longUrl := "http://new.example/y", customCode := none,
        expiresIn := none }
      "abcd" 2000 2 "ip" "b" = (exStExpired, CreateResp.serverError) :=
  (C5_insert_conflict_surfaces_500 exStExpired
    { longUrl := "http://new.example/y", customCode := none,
      expiresIn := none }
    "abcd" 2000 2 "ip" "b" exMapExpired (by decide) rfl rfl).1

/-- Counterexample for C5 as stated: with the code "abcd" already present
in the durable store and no custom code, the insert fails on the
uniqueness constraint and Create answers the generic 500 error, not
Conflict. -/
theorem C5_counterexample :
    (urlController.createShortUrl exStExpired
        { longUrl := "http://new.example/y", customCode := none,
          expiresIn := none }
        "abcd" 2000 2 "ip" "b").2 = CreateResp.serverError ∧
    (urlController.createShortUrl exStExpired
        { longUrl := "http://new.example/y", customCode := none,
          expiresIn := none }
        "abcd" 2000 2 "ip" "b").2 ≠ CreateResp.conflict := by
  exact ⟨by decide, by decide⟩

theorem getUrl_cache_down (c : Cache) (code : String)
    (hdown : c.up = false) : RedisService.getUrl c code = none := by
  unfold RedisService.getUrl
  rw [if_neg (by simp [hdown])]

theorem getUrl_after_create_caches (c : Cache) (code url2 : String)
    (meta : CachedMeta) (hup : c.up = true) :
    RedisService.getUrl
      (RedisService.cacheMetadata (RedisService.cacheUrl c code url2).1
        code meta).1 code = some url2 := by
  unfold RedisService.getUrl RedisService.cacheMetadata RedisService.cacheUrl
  rw [if_pos hup]
  simp only [hup, if_true]
  exact getKV_setKV_self c.url code url2

theorem cache_after_create_down (c : Cache) (code url2 : String)
    (meta : CachedMeta) (hdown : c.up = false) :
    (RedisService.cacheMetadata (RedisService.cacheUrl c code url2).1
      code meta).1 = c := by
  unfold RedisService.cacheMetadata RedisService.cacheUrl
  rw [if_neg (by simp [hdown])]
  simp only []
  rw [if_neg (by simp [hdown])]

theorem isExpired_computeExpiresAt (expiresIn : Option Nat) (now : Nat) :
    isExpired (computeExpiresAt expiresIn now) now = false := by
  unfold isExpired computeExpiresAt
  split
  · rename_i n heq
    split at heq
    · simp only [Option.some.injEq] at heq
      simp only [← heq, decide_eq_false_iff_not, Nat.not_lt]
      omega
    · exact absurd heq (by simp)
  · rfl

/-- Claim C6, confirmed: with the cache fully down every redis call
degrades to a miss or no-op and no cache-layer error ever reaches the
caller: Resolve of a live stored code still returns its destination by
falling through to the durable store, Create of a fresh code still
answers 201, and Delete of a present code still answers the success
acknowledgment. -/
theorem C6_cache_down_degrades (st : St) (now nextId : Nat)
    (req : CreateReq) (gen userIp baseUrl codeR codeD : String)
    (m : Mapping) (hdown : st.cache.up = false) :
    (DatabaseService.getUrlbyShortCode st.db codeR = some m →
      isExpired m.expires_at now = false →
      (urlController.redirectUrl st codeR now).2
        = RedirectResp.redirect m.long_url) ∧
    ((jsTruthyStr (some req.longUrl) && isURL req.longUrl) = true →
      jsTruthyStr req.customCode = false →
      DatabaseService.getUrlbyShortCode st.db gen = none →
      ∃ d, (urlController.createShortUrl st req gen now nextId userIp
          baseUrl).2 = CreateResp.created d ∧
        d.longUrl = req.longUrl ∧ d.shortCode = gen) ∧
    ((DatabaseService.getUrlbyShortCode st.db codeD).isSome = true →
      (urlController.deleteUrl st codeD).2 = DeleteResp.ok
        { success := true,
          message := "Short URL deleted successfully" }) := by
  refine ⟨?_, ?_, ?_⟩
  · intro hfound hfresh
    unfold urlController.redirectUrl
    rw [getUrl_cache_down st.cache codeR hdown,
      if_neg (by simp [jsTruthyStr]), hfound]
    simp only []
    rw [if_neg (by simp [hfresh])]
    rfl
  · intro hurl hnocustom hfresh
    unfold urlController.createShortUrl
    rw [if_neg (by simp [hurl]), if_neg (by simp [hnocustom])]
    unfold urlController.createInsertPhase
    have hins : DatabaseService.createUrl st.db gen req.longUrl
        (some userIp) (computeExpiresAt req.expiresIn now) now nextId
        = Except.ok (st.db ++
            [{ id := nextId, short_code := gen, long_url := req.longUrl,
               clicks := 0, created_at := now,
               expires_at := computeExpiresAt req.expiresIn now,
               user_ip := some userIp }],
            { id := nextId, short_code := gen, long_url := req.longUrl,
              clicks := 0, created_at := now,
              expires_at := computeExpiresAt req.expiresIn now,
              user_ip := some userIp }) := by
      unfold DatabaseService.createUrl
      rw [if_neg (by simp [any_of_find?_none hfresh])]
    rw [hins]
    exact ⟨_, rfl, rfl, rfl⟩
  · intro hsome
    obtain ⟨m2, hm2⟩ := Option.isSome_iff_exists.mp hsome
    unfold urlController.deleteUrl
    rw [show (DatabaseService.deleteUrl st.db codeD).2 = some m2 from hm2]

/-- Witness for C6: the theorem applied at the concrete cache-down state
with the live mapping. -/
theorem C6_witness :
    (urlController.redirectUrl exStDown "live1" 50).2
      = RedirectResp.redirect exMapLive.long_url ∧
    (urlController.deleteUrl exStDown "live1").2
      = DeleteResp.ok
          { success := true,
            message := "Short URL deleted successfully" } :=
  ⟨(C6_cache_down_degrades exStDown 50 9
      { longUrl := "http://n.example/a", customCode := none,
        expiresIn := none }
      "fresh77" "ip" "b" "live1" "live1" exMapLive rfl).1 rfl rfl,
   (C6_cache_down_degrades exStDown 50 9
      { longUrl := "http://n.example/a", customCode := none,
        expiresIn := none }
      "fresh77" "ip" "b" "live1" "live1" exMapLive rfl).2.2 rfl⟩

/-- Claim C7, confirmed: for a valid destination, an absent custom code
and a generated code that is not yet in the durable store, a successful
Create followed by Resolve of the returned code yields exactly the
original destination — through the warmed cache when the cache is up, and
through the durable-store fallback when the cache is down. -/
theorem C7_create_resolve_roundtrip (st : St) (req : CreateReq)
    (gen : String) (now nextId : Nat) (userIp baseUrl : String)
    (hurl : (jsTruthyStr (some req.longUrl) && isURL req.longUrl) = true)
    (hcustom : req.customCode = none)
    (hfresh : DatabaseService.getUrlbyShortCode st.db gen = none) :
    ∃ d, (urlController.createShortUrl st req gen now nextId userIp
        baseUrl).2 = CreateResp.created d ∧ d.shortCode = gen ∧
      d.longUrl = req.longUrl ∧
      (urlController.redirectUrl
        (urlController.createShortUrl st req gen now nextId userIp
          baseUrl).1 gen now).2 = RedirectResp.redirect req.longUrl := by
  have hnocustom : jsTruthyStr req.customCode = false := by
    rw [hcustom]; rfl
  have hlurl : req.longUrl ≠ "" := by
    have h := ((Bool.and_eq_true _ _).mp hurl).1
    simpa [jsTruthyStr] using h
  have hins : DatabaseService.createUrl st.db gen req.longUrl
      (some userIp) (computeExpiresAt req.expiresIn now) now nextId
      = Except.ok (st.db ++
          [{ id := nextId, short_code := gen, long_url := req.longUrl,
             clicks := 0, created_at := now,
             expires_at := computeExpiresAt req.expiresIn now,
             user_ip := some userIp }],
          { id := nextId, short_code := gen, long_url := req.longUrl,
            clicks := 0, created_at := now,
            expires_at := computeExpiresAt req.expiresIn now,
            user_ip := some userIp }) := by
    unfold DatabaseService.createUrl
    rw [if_neg (by simp [any_of_find?_none hfresh])]
  have hcr : urlController.createShortUrl st req gen now nextId userIp
      baseUrl
      = ({ db := st.db ++
            [{ id := nextId, short_code := gen, long_url := req.longUrl,
               clicks := 0, created_at := now,
               expires_at := computeExpiresAt req.expiresIn now,
               user_ip := some userIp }],
           cache := (RedisService.cacheMetadata
             (RedisService.cacheUrl st.cache gen req.longUrl).1 gen
             { id := nextId, createdAt := now,
               expiresAt := computeExpiresAt req.expiresIn now }).1 },
         CreateResp.created
           { id := nextId, shortCode := gen,
             shortUrl := baseUrl ++ "/" ++ gen, longUrl := req.longUrl,
             clicks := 0, createdAt := now,
             expiresAt := computeExpiresAt req.expiresIn now }) := by
    unfold urlController.createShortUrl
    rw [if_neg (by simp [hurl]), if_neg (by simp [hnocustom])]
    unfold urlController.createInsertPhase
    rw [hins]
  refine ⟨_, by rw [hcr], rfl, rfl, ?_⟩
  rw [hcr]
  by_cases hup : st.cache.up = true
  · have hget := getUrl_after_create_caches st.cache gen req.longUrl
      { id := nextId, createdAt := now,
        expiresAt := computeExpiresAt req.expiresIn now } hup
    unfold urlController.redirectUrl
    rw [hget, if_pos (by simpa [jsTruthyStr] using hlurl)]
    rfl
  · have hdown : st.cache.up = false := by
      revert hup; cases st.cache.up <;> simp
    have hcd := cache_after_create_down st.cache gen req.longUrl
      { id := nextId, createdAt := now,
        expiresAt := computeExpiresAt req.expiresIn now } hdown
    have hfind2 : DatabaseService.getUrlbyShortCode (st.db ++
        [{ id := nextId, short_code := gen, long_url := req.longUrl,
           clicks := 0, created_at := now,
           expires_at := computeExpiresAt req.expiresIn now,
           user_ip := some userIp }]) gen
        = some { id := nextId, short_code := gen,
                 long_url := req.longUrl, clicks := 0, created_at := now,
                 expires_at := computeExpiresAt req.expiresIn now,
                 user_ip := some userIp } := by
      unfold DatabaseService.getUrlbyShortCode at hfresh ⊢
      rw [find?_append_none hfresh]
      rw [List.find?_cons_of_pos _ (by simp)]
    unfold urlController.redirectUrl
    rw [hcd, getUrl_cache_down st.cache gen hdown,
      if_neg (by simp [jsTruthyStr]), hfind2]
    simp only []
    rw [if_neg (by simp [isExpired_computeExpiresAt])]
    rfl

/-- Witness for C7: the roundtrip theorem applied at the empty state with
destination "http://orig.example/p" and generated code "gen1234". -/
theorem C7_witness :
    ∃ d, (urlController.createShortUrl exStEmpty
        { longUrl := "http://orig.example/p", customCode := none,
          expiresIn := some 86400 }
        "gen1234" 500 1 "ip" "b").2 = CreateResp.created d ∧
      d.shortCode = "gen1234" ∧ d.longUrl = "http://orig.example/p" ∧
      (urlController.redirectUrl
        (urlController.createShortUrl exStEmpty
          { longUrl := "http://orig.example/p", customCode := none,
            expiresIn := some 86400 }
          "gen1234" 500 1 "ip" "b").1 "gen1234" 500).2
        = RedirectResp.redirect "http://orig.example/p" :=
  C7_create_resolve_roundtrip exStEmpty
    { longUrl := "http://orig.example/p", customCode := none,
      expiresIn := some 86400 }
    "gen1234" 500 1 "ip" "b" (by decide) rfl rfl

/-- Claim C8, confirmed: starting from a table whose click counters are
all non-negative, every engine operation keeps them non-negative, Create
and Delete leave the counter of every code readable before and after
unchanged, and Resolve changes a counter only by the click-recording
increment (every readable counter is unchanged or exactly one higher).
ListAll and GetAnalytics are pure reads of the table by construction and
return no new state. -/
theorem C8_clicks_invariant (st : St) (req : CreateReq) (gen : String)
    (now nextId : Nat) (userIp baseUrl codeR codeD : String)
    (hnn : clicksNonneg st.db) :
    (clicksNonneg (urlController.createShortUrl st req gen now nextId
        userIp baseUrl).1.db ∧
      clicksPreserved st.db (urlController.createShortUrl st req gen now
        nextId userIp baseUrl).1.db) ∧
    (clicksNonneg (urlController.redirectUrl st codeR now).1.db ∧
      clicksStep st.db (urlController.redirectUrl st codeR now).1.db) ∧
    (clicksNonneg (urlController.deleteUrl st codeD).1.db ∧
      clicksPreserved st.db (urlController.deleteUrl st codeD).1.db) := by
  refine ⟨?_, ?_, ?_⟩
  · rcases createShortUrl_db st req gen now nextId userIp baseUrl with
      h | ⟨rec, h0, hf, h⟩
    · rw [h]; exact ⟨hnn, clicksPreserved_refl st.db⟩
    · rw [h]
      exact ⟨clicksNonneg_append hnn h0, clicksPreserved_append st.db rec⟩
  · rcases redirectUrl_db st codeR now with h | h | h
    · rw [h]
      exact ⟨hnn, clicksStep_of_preserved (clicksPreserved_refl st.db)⟩
    · rw [h]
      exact ⟨clicksNonneg_filter _ hnn,
        clicksStep_of_preserved (clicksPreserved_filter st.db codeR)⟩
    · rw [h]; exact ⟨clicksNonneg_bump codeR hnn, clicksStep_bump st.db codeR⟩
  · rw [deleteUrl_db st codeD]
    exact ⟨clicksNonneg_filter _ hnn, clicksPreserved_filter st.db codeD⟩

/-- Witness for C8: the invariant applied at the concrete one-row state
under a Resolve. -/
theorem C8_witness :
    clicksNonneg (urlController.redirectUrl exStExpired "abcd" 2000).1.db :=
  (C8_clicks_invariant exStExpired
    { longUrl := "http://new.example/y", customCode := none,
      expiresIn := none }
    "g" 2000 2 "ip" "b" "abcd" "abcd"
    (by unfold clicksNonneg; decide)).2.1.1

/-- Claim C9, corrected: Delete answers the fixed success acknowledgment
(success flag and message, without the deleted Mapping in the response)
when a row with the code exists and NotFound otherwise; deleting a
nonexistent code yields NotFound and deleting twice in a row yields the
acknowledgment then NotFound. The response body cannot carry the deleted
Mapping: the row returned by DatabaseService.deleteUrl is discarded by
the controller (see the counterexample). -/
theorem C9_delete_semantics (st : St) (code : String) :
    (∀ m, DatabaseService.getUrlbyShortCode st.db code = some m →
      (urlController.deleteUrl st code).2
          = DeleteResp.ok
              { success := true,
                message := "Short URL deleted successfully" } ∧
        (urlController.deleteUrl (urlController.deleteUrl st code).1
          code).2 = DeleteResp.notFound) ∧
    (DatabaseService.getUrlbyShortCode st.db code = none →
      (urlController.deleteUrl st code).2 = DeleteResp.notFound) := by
  constructor
  · intro m hm
    have hresp : urlController.deleteUrl st code
        = ({ db := (DatabaseService.deleteUrl st.db code).1,
             cache := (RedisService.deleteUrl st.cache code).1 },
           DeleteResp.ok
             { success := true,
               message := "Short URL deleted successfully" }) := by
      unfold urlController.deleteUrl
      rw [show (DatabaseService.deleteUrl st.db code).2 = some m from hm]
    have hnone2 : (DatabaseService.deleteUrl
        (DatabaseService.deleteUrl st.db code).1 code).2 = none :=
      find?_filter_ne_self st.db code
    refine ⟨by rw [hresp], ?_⟩
    rw [hresp]
    unfold urlController.deleteUrl
    rw [hnone2]
  · intro hm
    unfold urlController.deleteUrl
    rw [show (DatabaseService.deleteUrl st.db code).2 = none from hm]

/-- Witness for C9: the amended theorem applied at the concrete one-row
state. -/
theorem C9_witness :
    (urlController.deleteUrl exStExpired "abcd").2
      = DeleteResp.ok
          { success := true,
            message := "Short URL deleted successfully" } :=
  ((C9_delete_semantics exStExpired "abcd").1 exMapExpired rfl).1

/-- Counterexample for C9 as stated: two states whose rows under "abcd"
differ in destination and click count produce the very same Delete
response, and that response is the fixed acknowledgment body — so the
response does not return the deleted Mapping, even though the database
layer did hand the deleted row to the controller. -/
theorem C9_counterexample :
    (urlController.deleteUrl exStA "abcd").2
      = (urlController.deleteUrl exStB "abcd").2 ∧
    (urlController.deleteUrl exStA "abcd").2
      = DeleteResp.ok
          { success := true,
            message := "Short URL deleted successfully" } ∧
    (DatabaseService.deleteUrl exStA.db "abcd").2 = some exMapA ∧
    (DatabaseService.deleteUrl exStB.db "abcd").2 = some exMapB ∧
    exMapA ≠ exMapB := by
  exact ⟨by decide, by decide, by decide, by decide, by decide⟩

/-- Claim C10, confirmed: GetAnalytics performs no logical-expiry check:
for any row still present in the durable store whose expiresAt lies in
the past, it returns the full analytics data rather than NotFound or any
expired signal. -/
theorem C10_analytics_ignores_expiry (st : St) (code : String)
    (now e : Nat) (row : AnalyticsRow)
    (hrow : DatabaseService.getAnalytics st.db code = some row)
    (hexp : row.expires_at = some e) (hpast : e < now) :
    urlController.getAnalytics st code
      = AnalyticsResp.ok
          { shortCode := row.short_code, longUrl := row.long_url,
            clicks := row.clicks, createdAt := row.created_at,
            expiresAt := row.expires_at } := by
  unfold urlController.getAnalytics
  rw [hrow]

/-- Witness for C10: the theorem applied at the concrete expired row at
time 2000. -/
theorem C10_witness :
    urlController.getAnalytics exStExpired "abcd"
      = AnalyticsResp.ok
          { shortCode := "abcd", longUrl := "http://db.example/x",
            clicks := 5, createdAt := 10, expiresAt := some 1000 } :=
  C10_analytics_ignores_expiry exStExpired "abcd" 2000 1000
    { short_code := "abcd", long_url := "http://db.example/x",
      clicks := 5, created_at := 10, expires_at := some 1000 }
    rfl rfl (by norm_num)
